import Mathlib

/-!
A verification development for the `todo` command-line application
(`src/todo/__init__.py` and `src/todo/sql/sqlite3/__init__.py`).

The program is a single class `TodoApp` managing a collection of todo items
in one of two backends selected by `db_type`:
* `"json"`: an in-memory Python dict `_todos` mapping item name to a record
  `{"description": str, "due_date": str, "done": bool}`, loaded from and
  saved to a JSON file;
* `"sqlite3"`: a SQLite database with a single table
  `todo(name TEXT, description TEXT, done BOOLEAN, due_date TEXT)`,
  accessed through a DB-API connection created in `load`.

This file gives a shallow embedding: Python dicts become insertion-ordered
association lists, SQLite tables become insertion-ordered row lists, and the
mutating methods become explicit state-passing functions that return both the
call's outcome (normal return or raised exception) and the post-call state.

Modelling decisions, stated once here:
* Python dicts preserve insertion order; `dict` keys are unique.  The json
  backend state is an association list in insertion order; the operations are
  translated assuming records carry all three fields, as `TodoApp.add` always
  writes them (a record dict with its three fields is non-empty, hence truthy,
  so `self._todos.get(name, None)` being truthy coincides with key presence).
* The Python `sqlite3` module is used with its default (legacy) transaction
  control: `executescript` (used only for schema creation) commits, a DML
  statement (`INSERT`/`UPDATE`/`DELETE`) implicitly opens a transaction if
  none is open, `SELECT` on the same connection sees the uncommitted changes,
  and `Connection.close()` without a prior `commit()` discards (rolls back)
  the open transaction.  `TodoApp` never calls `commit()`.  The connection is
  therefore modelled as the pair of the rows durable in the file (`committed`)
  and the rows the connection currently sees (`rows`), plus the
  open-transaction flag.
* `list.sort(key=..., reverse=...)` is a stable single-key sort, and SQLite's
  `ORDER BY` on this data compares TEXT bytewise (which on UTF-8 equals
  code-point order, i.e. Python's string order) and BOOLEAN as the integers
  0/1.  Both are modelled by a stable insertion sort with the corresponding
  boolean comparator; stable sorts with the same comparator agree elementwise.
  SQLite's tie order is unspecified; the model uses insertion order for ties,
  and no theorem below depends on tie order.
* The bool adapter/converter pair (`adapt_bool`/`convert_bool`) round-trips
  `False`/`True` through `0`/`1` exactly, so sqlite rows are modelled with
  `Bool` fields directly.
* A `datetime.datetime` is modelled by its wall-clock fields plus, when
  aware, the UTC offset in minutes that its `tzinfo` assigns it;
  `ZoneInfo("UTC")` is the offset-0 zone.  `astimezone(ZoneInfo("UTC"))`
  subtracts the offset on the timeline; the Gregorian calendar arithmetic
  uses the standard civil-from-days / days-from-civil algorithms.
  `strftime("%Y-%m-%dT%H:%MZ")` zero-pads; the format model is faithful for
  the `datetime` year range on which `%Y` pads to four digits.
-/

/-- One row of the `todo` table, and equally one element of the list returned
by `TodoApp.list` (a dict with keys name, description, due_date, done). -/
structure TodoItem where
  name : String
  description : String
  due_date : String
  done : Bool
deriving Repr, DecidableEq

/-- The value part of one entry of the json backend's `_todos` dict:
`{"description": ..., "due_date": ..., "done": ...}` as written by
`TodoApp.add`. -/
structure TodoRecord where
  description : String
  due_date : String
  done : Bool
deriving Repr, DecidableEq

/-- The state of the sqlite3 DB-API connection held in `TodoApp._conn`,
under Python's default (legacy) transaction control: `committed` is the table
content durable in the database file, `rows` is the table content this
connection currently sees, and `in_transaction` records whether a DML
statement has implicitly opened a transaction that has not been committed
(`TodoApp` never calls `commit()`). -/
structure SqlConn where
  committed : List TodoItem
  rows : List TodoItem
  in_transaction : Bool
deriving Repr, DecidableEq

/-- The state of a `TodoApp` after `load`, by `db_type`: the json backend's
in-memory dict `_todos` (insertion-ordered, unique keys), or the sqlite3
backend's connection. -/
inductive Store
| json (todos : List (String × TodoRecord))
| sql (conn : SqlConn)
deriving Repr, DecidableEq

/-- The exceptions the `TodoApp` operations raise:
`duplicateName` is `ValueError("A Todo item with the requested name already
exists")`, `notFound` is `KeyError("A Todo item with the requested name does
not exist")`, `invalidSortBy` and `invalidSortOrder` are the two
`ValueError`s raised by `TodoApp.list`'s argument validation. -/
inductive TodoError
| duplicateName
| notFound
| invalidSortBy
| invalidSortOrder
deriving Repr, DecidableEq

/-! ## Date normalization (`TodoApp.add`, lines 152-161) -/

/-- Wall-clock fields of a `datetime.datetime` at minute precision (the CLI
parses due dates with `"%Y-%m-%dT%H:%M"`, so seconds are zero and are not
rendered by the storage format). -/
structure DateFields where
  year : Int
  month : Int
  day : Int
  hour : Int
  minute : Int
deriving Repr, DecidableEq

/-- A `datetime.datetime` argument to `TodoApp.add`: wall-clock fields plus,
when `tzinfo` is present, the UTC offset in minutes that the zone assigns
this datetime (`utcoffset`); `none` is a naive datetime.  `ZoneInfo("UTC")`
is the offset-0 zone. -/
structure PyDatetime where
  fields : DateFields
  utcoffset : Option Int
deriving Repr, DecidableEq

/-- The character `'0'` + `d`, for a digit value `d < 10`. -/
def digitChar (d : Nat) : Char := Char.ofNat (48 + d)

/-- Two-digit zero-padded decimal rendering (`strftime` `%m`, `%d`, `%H`,
`%M`). -/
def pad2chars (n : Nat) : List Char :=
  [digitChar (n / 10 % 10), digitChar (n % 10)]

/-- Four-digit zero-padded decimal rendering (`strftime` `%Y` on the
supported year range). -/
def pad4chars (n : Nat) : List Char :=
  [digitChar (n / 1000 % 10), digitChar (n / 100 % 10),
   digitChar (n / 10 % 10), digitChar (n % 10)]

/-- The characters of `strftime("%Y-%m-%dT%H:%MZ")`. -/
def fmtZchars (f : DateFields) : List Char :=
  pad4chars f.year.toNat ++ ('-' :: (pad2chars f.month.toNat ++
    ('-' :: (pad2chars f.day.toNat ++ ('T' :: (pad2chars f.hour.toNat ++
      (':' :: (pad2chars f.minute.toNat ++ ['Z']))))))))

/-- `strftime("%Y-%m-%dT%H:%MZ")`: the canonical stored due-date string. -/
def fmtZ (f : DateFields) : String := ⟨fmtZchars f⟩

/-- Days since 1970-01-01 of a proleptic-Gregorian civil date
(days-from-civil; Lean's `/` on `Int` is floor division for positive
divisors, which this algorithm relies on). -/
def daysFromCivil (y m d : Int) : Int :=
  let y2 := if m ≤ 2 then y - 1 else y
  let era := y2 / 400
  let yoe := y2 - era * 400
  let mp := if 2 < m then m - 3 else m + 9
  let doy := (153 * mp + 2) / 5 + d - 1
  let doe := yoe * 365 + yoe / 4 - yoe / 100 + doy
  era * 146097 + doe - 719468

/-- Civil date (year, month, day) of a count of days since 1970-01-01
(civil-from-days). -/
def civilFromDays (z0 : Int) : Int × Int × Int :=
  let z := z0 + 719468
  let era := z / 146097
  let doe := z - era * 146097
  let yoe := (doe - doe / 1460 + doe / 36524 - doe / 146096) / 365
  let y := yoe + era * 400
  let doy := doe - (365 * yoe + yoe / 4 - yoe / 100)
  let mp := (5 * doy + 2) / 153
  let d := doy - (153 * mp + 2) / 5 + 1
  let m := if mp < 10 then mp + 3 else mp - 9
  (if m ≤ 2 then y + 1 else y, m, d)

/-- `datetime.astimezone(ZoneInfo("UTC"))` of an aware datetime whose zone
assigns it the offset `offMin` minutes: subtract the offset on the timeline
and convert back to civil fields. -/
def astimezoneUtc (f : DateFields) (offMin : Int) : DateFields :=
  let total := daysFromCivil f.year f.month f.day * 1440 +
    f.hour * 60 + f.minute - offMin
  let days := total / 1440
  let rem := total % 1440
  let c := civilFromDays days
  ⟨c.1, c.2.1, c.2.2, rem / 60, rem % 60⟩

/-! ## The `TodoApp` operations -/

namespace TodoApp

/-- The due-date normalization block of `TodoApp.add` (lines 152-161):
absent due date gives the empty string; an aware datetime in
`ZoneInfo("UTC")` (offset 0) is formatted directly; any other aware datetime
is converted with `astimezone(ZoneInfo("UTC"))` first; a naive datetime is
assumed to already be UTC and formatted directly. -/
def due_date_str : Option PyDatetime → String
  | none => ""
  | some dt =>
    match dt.utcoffset with
    | none => fmtZ dt.fields
    | some off => if off = 0 then fmtZ dt.fields else fmtZ (astimezoneUtc dt.fields off)

end TodoApp

/-- Boolean lexicographic strict comparison of character lists: Python's
string `<`, and equally SQLite's bytewise TEXT comparison read at code-point
level. -/
def charListLt : List Char → List Char → Bool
  | _, [] => false
  | [], _ :: _ => true
  | a :: as, b :: bs => decide (a < b) || (decide (a = b) && charListLt as bs)

/-- Python string `<` on the two strings' characters. -/
def strLtb (a b : String) : Bool := charListLt a.data b.data

/-- Python string `<=` (total order: `a <= b` iff not `b < a`). -/
def strLe (a b : String) : Bool := !(strLtb b a)

/-- The single-key comparison used when sorting todo items by the field
`sortBy`: strings compare as Python strings / SQLite TEXT, and `done`
compares `False < True` (SQLite stores it as the integers 0/1). -/
def sortKeyLe (sortBy : String) (a b : TodoItem) : Bool :=
  if sortBy = "description" then strLe a.description b.description
  else if sortBy = "done" then (!a.done || b.done)
  else if sortBy = "due_date" then strLe a.due_date b.due_date
  else strLe a.name b.name

/-- The comparator of the stable sort performed by `TodoApp.list`:
`list.sort(key=lambda x: x[sort_by], reverse=sort_order=="desc")` for the
json backend and `ORDER BY <field> <direction>` for the sqlite3 backend. -/
def listCmp (sortBy sortOrder : String) (a b : TodoItem) : Bool :=
  if sortOrder = "desc" then sortKeyLe sortBy b a else sortKeyLe sortBy a b

/-- The stable single-key sort of `TodoApp.list` (Python's stable
`list.sort` / SQLite `ORDER BY`), modelled by a stable insertion sort. -/
def sortTodos (sortBy sortOrder : String) (l : List TodoItem) : List TodoItem :=
  List.insertionSort (fun a b => listCmp sortBy sortOrder a b = true) l

/-- The fresh dict `TodoApp.list` builds for one entry of the json backend:
`{"name": k, "due_date": "", "done": False}` updated with the stored record
(whose fields are all present, so the defaults are always overwritten). -/
def entryItem (p : String × TodoRecord) : TodoItem :=
  ⟨p.1, p.2.description, p.2.due_date, p.2.done⟩

namespace TodoApp

/-- `TodoApp.list` (lines 103-141): validate `sort_by` and `sort_order`
(raising `ValueError` before touching the data), then materialize and sort.
The json backend builds a fresh dict per item (`{"name": k, "due_date": "",
"done": False}` updated with the stored record, whose fields are all
present); the sqlite3 backend fetches all rows ordered by the validated
field and direction.  The method does not mutate the store; the state is
threaded through to make that a theorem rather than a convention. -/
def list (s : Store) (sort_by sort_order : String) :
    Except TodoError (List TodoItem) × Store :=
  if sort_by ∉ (["name", "description", "done", "due_date"] : List String) then
    (.error .invalidSortBy, s)
  else if sort_order ∉ (["asc", "desc"] : List String) then
    (.error .invalidSortOrder, s)
  else
    match s with
    | .json todos =>
      (.ok (sortTodos sort_by sort_order (todos.map entryItem)), s)
    | .sql c => (.ok (sortTodos sort_by sort_order c.rows), s)

/-- `TodoApp.add` (lines 143-177): normalize the due date, then, per
backend, check for an existing item with the name (raising `ValueError` and
leaving the store untouched if found) and insert the new item with
`done = False`.  The json dict insert puts the new key last; the sqlite3
`INSERT` appends a row and implicitly opens a transaction. -/
def add (s : Store) (name description : String) (due_date : Option PyDatetime) :
    Except TodoError Unit × Store :=
  let dds := due_date_str due_date
  match s with
  | .json todos =>
    if (todos.lookup name).isSome then (.error .duplicateName, s)
    else (.ok (), .json (todos ++ [(name, ⟨description, dds, false⟩)]))
  | .sql c =>
    if c.rows.any (fun r => r.name == name) then (.error .duplicateName, s)
    else (.ok (), .sql ⟨c.committed, c.rows ++ [⟨name, description, dds, false⟩], true⟩)

/-- `TodoApp.remove` (lines 179-187): the json backend is `del
self._todos[name]`, raising `KeyError` when the key is absent; the sqlite3
backend executes `DELETE FROM todo WHERE name = ?` unconditionally (no
existence check, no error, opens a transaction). -/
def remove (s : Store) (name : String) : Except TodoError Unit × Store :=
  match s with
  | .json todos =>
    if (todos.lookup name).isSome then
      (.ok (), .json (todos.filter (fun p => !(p.1 == name))))
    else (.error .notFound, s)
  | .sql c =>
    (.ok (), .sql ⟨c.committed, c.rows.filter (fun r => !(r.name == name)), true⟩)

end TodoApp

/-- The update applied by `TodoApp.done` to one entry of the json dict:
`self._todos[name]["done"] = True`. -/
def markEntry (name : String) (p : String × TodoRecord) : String × TodoRecord :=
  if p.1 == name then (p.1, ⟨p.2.description, p.2.due_date, true⟩) else p

/-- The update applied by `UPDATE todo SET done = ? WHERE name = ?` to one
row. -/
def markRow (name : String) (r : TodoItem) : TodoItem :=
  if r.name == name then ⟨r.name, r.description, r.due_date, true⟩ else r

namespace TodoApp

/-- `TodoApp.done` (lines 189-207): per backend, check that an item with the
name exists (raising `KeyError` and leaving the store untouched otherwise),
then set its `done` field to `True` (the sqlite3 `UPDATE` opens a
transaction). -/
def done (s : Store) (name : String) : Except TodoError Unit × Store :=
  match s with
  | .json todos =>
    if (todos.lookup name).isSome then (.ok (), .json (todos.map (markEntry name)))
    else (.error .notFound, s)
  | .sql c =>
    if c.rows.any (fun r => r.name == name) then
      (.ok (), .sql ⟨c.committed, c.rows.map (markRow name), true⟩)
    else (.error .notFound, s)

end TodoApp

/-- A database file on disk, by `db_type`: `none` contents mean the file (or,
for sqlite3, the `todo` table) does not exist yet. -/
inductive DbFile
| jsonFile (contents : Option (List (String × TodoRecord)))
| sqliteFile (contents : Option (List TodoItem))
deriving Repr, DecidableEq

namespace TodoApp

/-- `TodoApp.load` (lines 63-83): json reads the file into `_todos`,
treating a missing file as the empty dict; sqlite3 connects and creates the
`todo` table if absent (`executescript` commits the DDL), leaving a
connection with no open transaction whose visible rows equal the file's
rows. -/
def load : DbFile → Store
  | .jsonFile none => .json []
  | .jsonFile (some todos) => .json todos
  | .sqliteFile none => .sql ⟨[], [], false⟩
  | .sqliteFile (some rows) => .sql ⟨rows, rows, false⟩

/-- `TodoApp.save` (lines 85-89): json only; serialize the whole in-memory
dict over the file. -/
def save (s : Store) : Option DbFile :=
  match s with
  | .json todos => some (.jsonFile (some todos))
  | .sql _ => none

/-- `TodoApp.close` (lines 91-101): json calls `save`, writing the whole
in-memory dict to the file; sqlite3 calls `Connection.close()`, which, since
`TodoApp` never calls `commit()`, discards (rolls back) the implicitly
opened transaction, leaving the file with the rows committed at load time. -/
def close : Store → DbFile
  | .json todos => .jsonFile (some todos)
  | .sql c => .sqliteFile (some (if c.in_transaction then c.committed else c.rows))

end TodoApp

/-- One mutating `TodoApp` call in a session. -/
inductive Op
| add (name description : String) (due_date : Option PyDatetime)
| remove (name : String)
| done (name : String)
deriving Repr, DecidableEq

namespace TodoApp

/-- Dispatch one mutating call. -/
def applyOp (s : Store) : Op → Except TodoError Unit × Store
  | .add name description due_date => add s name description due_date
  | .remove name => remove s name
  | .done name => done s name

/-- Run a session of mutating calls; a raised exception aborts the run. -/
def runOps : Store → List Op → Except TodoError Store
  | s, [] => .ok s
  | s, op :: ops =>
    match applyOp s op with
    | (.ok _, s') => runOps s' ops
    | (.error e, _) => .error e

end TodoApp

/-- The item collection of a store, name attached: the json dict materialized
the way `TodoApp.list` does, or the sqlite3 connection's visible rows. -/
def Store.items : Store → List TodoItem
  | .json todos => todos.map entryItem
  | .sql c => c.rows

/-- The existence check each backend performs: json key presence
(`self._todos.get(name, None)` is truthy, records being non-empty dicts),
sqlite3 `SELECT 1 FROM todo WHERE name = ?` returning a row. -/
def Store.hasName : Store → String → Bool
  | .json todos, name => (todos.lookup name).isSome
  | .sql c, name => c.rows.any (fun r => r.name == name)

/-- The spec's store invariant: exactly one item per name. -/
def Store.namesUnique (s : Store) : Prop :=
  ((Store.items s).map (fun it => it.name)).Nodup

/-- Wall-clock fields a Python `datetime` whose year `%Y` formats as four
digits can carry: year in 1000..9999, calendar-shaped month/day, clock-shaped
hour/minute. -/
def validFields (f : DateFields) : Prop :=
  1000 ≤ f.year ∧ f.year ≤ 9999 ∧ 1 ≤ f.month ∧ f.month ≤ 12 ∧
    1 ≤ f.day ∧ f.day ≤ 31 ∧ 0 ≤ f.hour ∧ f.hour ≤ 23 ∧
    0 ≤ f.minute ∧ f.minute ≤ 59

/-- Strictly earlier in time: lexicographic order on
(year, month, day, hour, minute), which is chronological order for civil
timestamps. -/
def chronoLt (f g : DateFields) : Prop :=
  f.year < g.year ∨ (f.year = g.year ∧ (f.month < g.month ∨ (f.month = g.month ∧
    (f.day < g.day ∨ (f.day = g.day ∧ (f.hour < g.hour ∨ (f.hour = g.hour ∧
      f.minute < g.minute)))))))

/-- Earlier or equal in time: lexicographic order on
(year, month, day, hour, minute). -/
def chronoLe (f g : DateFields) : Prop :=
  f.year < g.year ∨ (f.year = g.year ∧ (f.month < g.month ∨ (f.month = g.month ∧
    (f.day < g.day ∨ (f.day = g.day ∧ (f.hour < g.hour ∨ (f.hour = g.hour ∧
      f.minute ≤ g.minute)))))))

/-- Decimal digit character test. -/
def isDigitChar (c : Char) : Bool := decide ('0' ≤ c) && decide (c ≤ '9')

/-- Shape check for the fixed stored due-date pattern `YYYY-MM-DDTHH:MMZ`. -/
def isCanonicalZ (s : String) : Bool :=
  match s.data with
  | [y1, y2, y3, y4, '-', m1, m2, '-', d1, d2, 'T', h1, h2, ':', n1, n2, 'Z'] =>
    isDigitChar y1 && isDigitChar y2 && isDigitChar y3 && isDigitChar y4 &&
      isDigitChar m1 && isDigitChar m2 && isDigitChar d1 && isDigitChar d2 &&
      isDigitChar h1 && isDigitChar h2 && isDigitChar n1 && isDigitChar n2
  | _ => false

/-- The spec's §8 example collection, as sqlite3 rows / listed items:
"Todo 1".."Todo 4" with due dates `2024-10-10T17:00Z`, "",
`2024-10-08T14:00Z`, `2024-10-20T22:00Z`. -/
def exampleTodos : List TodoItem :=
  [⟨"Todo 1", "", "2024-10-10T17:00Z", false⟩,
   ⟨"Todo 2", "", "", false⟩,
   ⟨"Todo 3", "", "2024-10-08T14:00Z", false⟩,
   ⟨"Todo 4", "", "2024-10-20T22:00Z", false⟩]

/-- The same collection as the json backend's dict. -/
def exampleTodosJson : List (String × TodoRecord) :=
  [("Todo 1", ⟨"", "2024-10-10T17:00Z", false⟩),
   ("Todo 2", ⟨"", "", false⟩),
   ("Todo 3", ⟨"", "2024-10-08T14:00Z", false⟩),
   ("Todo 4", ⟨"", "2024-10-20T22:00Z", false⟩)]

/-- The §8 example collection sorted by due date ascending:
[Todo 2, Todo 3, Todo 1, Todo 4]. -/
def exampleTodosByDue : List TodoItem :=
  [⟨"Todo 2", "", "", false⟩,
   ⟨"Todo 3", "", "2024-10-08T14:00Z", false⟩,
   ⟨"Todo 1", "", "2024-10-10T17:00Z", false⟩,
   ⟨"Todo 4", "", "2024-10-20T22:00Z", false⟩]

/-! ## Helper lemmas: the lexicographic string order -/

theorem charListLt_asymm :
    ∀ {a b : List Char}, charListLt a b = true → charListLt b a = false
  | _, [], h => by simp [charListLt] at h
  | [], _ :: _, _ => by simp [charListLt]
  | a :: as, b :: bs, h => by
    simp only [charListLt, Bool.or_eq_true, Bool.and_eq_true, decide_eq_true_eq] at h
    simp only [charListLt, Bool.or_eq_false_iff, Bool.and_eq_false_iff,
      decide_eq_false_iff_not, decide_eq_true_eq]
    rcases h with h | ⟨he, hr⟩
    · exact ⟨fun hba => absurd h (lt_asymm hba), Or.inl fun hba => absurd hba (ne_of_gt h)⟩
    · subst he
      exact ⟨lt_irrefl a, Or.inr (by simpa using charListLt_asymm hr)⟩

theorem charListLt_connex :
    ∀ {a b : List Char}, charListLt a b = false → charListLt b a = false → a = b
  | [], [], _, _ => rfl
  | [], _ :: _, h, _ => by simp [charListLt] at h
  | _ :: _, [], _, h => by simp [charListLt] at h
  | a :: as, b :: bs, h, h' => by
    simp only [charListLt, Bool.or_eq_false_iff, Bool.and_eq_false_iff,
      decide_eq_false_iff_not, decide_eq_true_eq] at h h'
    rcases h with ⟨hab, h2⟩
    rcases h' with ⟨hba, h2'⟩
    have he : a = b := le_antisymm (not_lt.mp hba) (not_lt.mp hab)
    subst he
    rcases h2 with h2 | h2
    · exact absurd rfl h2
    rcases h2' with h2' | h2'
    · exact absurd rfl h2'
    exact congrArg (a :: ·) (charListLt_connex h2 h2')

theorem charListLt_trans :
    ∀ {a b c : List Char}, charListLt a b = true → charListLt b c = true →
      charListLt a c = true
  | _, _, [], _, h => by simp [charListLt] at h
  | [], _ :: _, _ :: _, _, _ => by simp [charListLt]
  | _ :: _, [], _ :: _, h, _ => by simp [charListLt] at h
  | a :: as, b :: bs, c :: cs, h, h' => by
    simp only [charListLt, Bool.or_eq_true, Bool.and_eq_true, decide_eq_true_eq] at h h' ⊢
    rcases h with h | ⟨he, hr⟩
    · rcases h' with h' | ⟨he', _⟩
      · exact Or.inl (lt_trans h h')
      · exact Or.inl (he' ▸ h)
    · subst he
      rcases h' with h' | ⟨he', hr'⟩
      · exact Or.inl h'
      · exact Or.inr ⟨he', charListLt_trans hr hr'⟩

theorem strLe_total (a b : String) : strLe a b = true ∨ strLe b a = true := by
  by_cases h : charListLt b.data a.data = true
  · exact Or.inr (by simp [strLe, strLtb, charListLt_asymm h])
  · exact Or.inl (by simp [strLe, strLtb] at h ⊢; exact h)

theorem strLe_trans {a b c : String} (h1 : strLe a b = true) (h2 : strLe b c = true) :
    strLe a c = true := by
  simp only [strLe, strLtb, Bool.not_eq_true'] at h1 h2 ⊢
  by_contra hca
  rw [Bool.not_eq_false] at hca
  by_cases hab : charListLt a.data b.data = true
  · exact absurd (charListLt_trans hca hab) (by simp [h2])
  · have : a.data = b.data := charListLt_connex (Bool.not_eq_true _ ▸ hab : _) h1
    rw [this] at hca
    exact absurd hca (by simp [h2])

theorem strLe_empty_left (s : String) : strLe "" s = true := by
  have : ("" : String).data = [] := rfl
  simp only [strLe, strLtb, this, Bool.not_eq_true']
  cases s.data <;> simp [charListLt]

theorem eq_empty_of_strLe_empty {s : String} (h : strLe s "" = true) : s = "" := by
  simp only [strLe, strLtb, Bool.not_eq_true'] at h
  cases hs : s.data with
  | nil => cases s with
    | mk data => simpa [String.ext_iff] using hs
  | cons c cs =>
    rw [hs] at h
    simp [charListLt] at h

/-! ## Helper lemmas: zero-padded decimal rendering vs numeric order -/

theorem digit_facts : ∀ a < 10, ∀ b < 10,
    (decide (digitChar a < digitChar b) = decide (a < b)) ∧
      ((digitChar a = digitChar b) ↔ a = b) := by decide

theorem digit_is_digit : ∀ a < 10, isDigitChar (digitChar a) = true := by decide

theorem decide_cons_eq (x y : Char) (xs ys : List Char) :
    decide (x :: xs = y :: ys) = (decide (x = y) && decide (xs = ys)) := by
  by_cases h1 : x = y <;> by_cases h2 : xs = ys <;> simp [h1, h2]

theorem charListLt_append_eqlen :
    ∀ (a b c d : List Char), a.length = b.length →
      charListLt (a ++ c) (b ++ d) =
        (charListLt a b || (decide (a = b) && charListLt c d))
  | [], [], c, d, _ => by simp [charListLt]
  | [], _ :: _, _, _, h => by simp at h
  | _ :: _, [], _, _, h => by simp at h
  | x :: xs, y :: ys, c, d, h => by
    have ih := charListLt_append_eqlen xs ys c d (by simpa using h)
    simp only [List.cons_append, charListLt, decide_cons_eq, List.append_eq]
    rw [ih]
    cases decide (x < y) <;> cases decide (x = y) <;> cases charListLt xs ys <;>
      cases decide (xs = ys) <;> cases charListLt c d <;> rfl

theorem charListLt_cons_same (c : Char) (u v : List Char) :
    charListLt (c :: u) (c :: v) = charListLt u v := by
  simp [charListLt, lt_irrefl]

theorem pad2_lt_iff {m n : Nat} (hm : m < 100) (hn : n < 100) :
    (charListLt (pad2chars m) (pad2chars n) = true) ↔ m < n := by
  have h1 := digit_facts (m / 10 % 10) (Nat.mod_lt _ (by omega)) (n / 10 % 10)
    (Nat.mod_lt _ (by omega))
  have h2 := digit_facts (m % 10) (Nat.mod_lt _ (by omega)) (n % 10)
    (Nat.mod_lt _ (by omega))
  simp only [pad2chars, charListLt, h1.1, Bool.or_eq_true, Bool.and_eq_true,
    decide_eq_true_eq, h1.2, h2.1, Bool.or_false, Bool.and_false]
  omega

theorem pad2_eq_iff {m n : Nat} (hm : m < 100) (hn : n < 100) :
    pad2chars m = pad2chars n ↔ m = n := by
  have h1 := (digit_facts (m / 10 % 10) (Nat.mod_lt _ (by omega)) (n / 10 % 10)
    (Nat.mod_lt _ (by omega))).2
  have h2 := (digit_facts (m % 10) (Nat.mod_lt _ (by omega)) (n % 10)
    (Nat.mod_lt _ (by omega))).2
  simp only [pad2chars, List.cons.injEq, and_true, h1, h2]
  omega

theorem pad4_decomp (n : Nat) :
    pad4chars n = pad2chars (n / 100) ++ pad2chars (n % 100) := by
  have e1 : n / 100 / 10 % 10 = n / 1000 % 10 := by omega
  have e2 : n / 100 % 10 = n / 100 % 10 := rfl
  have e3 : n % 100 / 10 % 10 = n / 10 % 10 := by omega
  have e4 : n % 100 % 10 = n % 10 := by omega
  simp only [pad4chars, pad2chars, List.cons_append, List.nil_append, e1, e3, e4]

theorem pad4_lt_iff {m n : Nat} (hm : m < 10000) (hn : n < 10000) :
    (charListLt (pad4chars m) (pad4chars n) = true) ↔ m < n := by
  rw [pad4_decomp, pad4_decomp,
    charListLt_append_eqlen _ _ _ _ (by simp [pad2chars])]
  simp only [Bool.or_eq_true, Bool.and_eq_true, decide_eq_true_eq,
    pad2_lt_iff (by omega : m / 100 < 100) (by omega : n / 100 < 100),
    pad2_eq_iff (by omega : m / 100 < 100) (by omega : n / 100 < 100),
    pad2_lt_iff (by omega : m % 100 < 100) (by omega : n % 100 < 100)]
  omega

theorem pad4_eq_iff {m n : Nat} (hm : m < 10000) (hn : n < 10000) :
    pad4chars m = pad4chars n ↔ m = n := by
  rw [pad4_decomp, pad4_decomp]
  constructor
  · intro h
    obtain ⟨h1, h2⟩ := List.append_inj h (by simp [pad2chars])
    rw [pad2_eq_iff (by omega : m / 100 < 100) (by omega : n / 100 < 100)] at h1
    rw [pad2_eq_iff (by omega : m % 100 < 100) (by omega : n % 100 < 100)] at h2
    omega
  · intro h
    rw [h]


theorem digitChar_mod_lt_iff (a b : Nat) :
    digitChar (a % 10) < digitChar (b % 10) ↔ a % 10 < b % 10 :=
  decide_eq_decide.mp ((digit_facts _ (Nat.mod_lt _ (by omega)) _
    (Nat.mod_lt _ (by omega))).1)

theorem digitChar_mod_eq_iff (a b : Nat) :
    digitChar (a % 10) = digitChar (b % 10) ↔ a % 10 = b % 10 :=
  (digit_facts _ (Nat.mod_lt _ (by omega)) _
    (Nat.mod_lt _ (by omega))).2

theorem digitLex2_iff {m n : Nat} (hm : m < 100) (hn : n < 100) :
    (m / 10 % 10 < n / 10 % 10 ∨ (m / 10 % 10 = n / 10 % 10 ∧ m % 10 < n % 10)) ↔
      m < n := by omega

theorem digitEq2_iff {m n : Nat} (hm : m < 100) (hn : n < 100) :
    (m / 10 % 10 = n / 10 % 10 ∧ m % 10 = n % 10) ↔ m = n := by omega

theorem digitLex4_iff {m n : Nat} (hm : m < 10000) (hn : n < 10000) :
    (m / 1000 % 10 < n / 1000 % 10 ∨ (m / 1000 % 10 = n / 1000 % 10 ∧
      (m / 100 % 10 < n / 100 % 10 ∨ (m / 100 % 10 = n / 100 % 10 ∧
        (m / 10 % 10 < n / 10 % 10 ∨ (m / 10 % 10 = n / 10 % 10 ∧
          m % 10 < n % 10)))))) ↔ m < n := by
  have e1 : m / 1000 % 10 = m / 100 / 10 % 10 := by omega
  have e2 : n / 1000 % 10 = n / 100 / 10 % 10 := by omega
  have e3 : m / 100 % 10 = m / 100 % 10 := rfl
  have e5 : m / 10 % 10 = m % 100 / 10 % 10 := by omega
  have e6 : n / 10 % 10 = n % 100 / 10 % 10 := by omega
  have e7 : m % 10 = m % 100 % 10 := by omega
  have e8 : n % 10 = n % 100 % 10 := by omega
  rw [e1, e2, e5, e6, e7, e8,
    digitLex2_iff (show m % 100 < 100 by omega) (show n % 100 < 100 by omega)]
  have h1 := digitLex2_iff (show m / 100 < 100 by omega) (show n / 100 < 100 by omega)
  have h2 := digitEq2_iff (show m / 100 < 100 by omega) (show n / 100 < 100 by omega)
  omega

theorem digitEq4_iff {m n : Nat} (hm : m < 10000) (hn : n < 10000) :
    (m / 1000 % 10 = n / 1000 % 10 ∧ m / 100 % 10 = n / 100 % 10 ∧
      m / 10 % 10 = n / 10 % 10 ∧ m % 10 = n % 10) ↔ m = n := by omega

theorem fmtZ_lt_iff {f g : DateFields} (hf : validFields f) (hg : validFields g) :
    (charListLt (fmtZchars f) (fmtZchars g) = true) ↔ chronoLt f g := by
  obtain ⟨hf1, hf2, hf3, hf4, hf5, hf6, hf7, hf8, hf9, hf10⟩ := hf
  obtain ⟨hg1, hg2, hg3, hg4, hg5, hg6, hg7, hg8, hg9, hg10⟩ := hg
  rw [fmtZchars, fmtZchars,
    charListLt_append_eqlen _ _ _ _ (by simp [pad4chars]), charListLt_cons_same,
    charListLt_append_eqlen _ _ _ _ (by simp [pad2chars]), charListLt_cons_same,
    charListLt_append_eqlen _ _ _ _ (by simp [pad2chars]), charListLt_cons_same,
    charListLt_append_eqlen _ _ _ _ (by simp [pad2chars]), charListLt_cons_same,
    charListLt_append_eqlen _ _ _ _ (by simp [pad2chars]), charListLt_cons_same]
  simp only [charListLt, pad4chars, pad2chars, Bool.and_false, Bool.or_false,
    Bool.or_eq_true, Bool.and_eq_true, decide_eq_true_eq, List.cons.injEq, and_true,
    digitChar_mod_lt_iff, digitChar_mod_eq_iff]
  rw [digitLex4_iff (by omega : f.year.toNat < 10000) (by omega : g.year.toNat < 10000),
    digitLex2_iff (by omega : f.month.toNat < 100) (by omega : g.month.toNat < 100),
    digitLex2_iff (by omega : f.day.toNat < 100) (by omega : g.day.toNat < 100),
    digitLex2_iff (by omega : f.hour.toNat < 100) (by omega : g.hour.toNat < 100),
    digitLex2_iff (by omega : f.minute.toNat < 100) (by omega : g.minute.toNat < 100),
    digitEq4_iff (by omega : f.year.toNat < 10000) (by omega : g.year.toNat < 10000),
    digitEq2_iff (by omega : f.month.toNat < 100) (by omega : g.month.toNat < 100),
    digitEq2_iff (by omega : f.day.toNat < 100) (by omega : g.day.toNat < 100),
    digitEq2_iff (by omega : f.hour.toNat < 100) (by omega : g.hour.toNat < 100)]
  unfold chronoLt
  omega

theorem fmtZ_le_iff_chronoLe {f g : DateFields} (hf : validFields f)
    (hg : validFields g) : (strLe (fmtZ f) (fmtZ g) = true) ↔ chronoLe f g := by
  have hfg := fmtZ_lt_iff hg hf
  have h1 : (strLe (fmtZ f) (fmtZ g) = true) ↔
      ¬(charListLt (fmtZchars g) (fmtZchars f) = true) := by
    show ((!(charListLt (fmtZchars g) (fmtZchars f))) = true) ↔ _
    cases charListLt (fmtZchars g) (fmtZchars f) <;> simp
  rw [h1, hfg]
  unfold chronoLt chronoLe
  omega

/-! ## Helper lemmas: the backends -/

theorem lookup_none_keys {n : String} :
    ∀ {l : List (String × TodoRecord)}, l.lookup n = none → ∀ p ∈ l, ¬(p.1 = n)
  | [], _, p, hp => by simp at hp
  | (k, v) :: rest, h, p, hp => by
    rw [List.lookup_cons] at h
    cases hb : (n == k) with
    | true => rw [hb] at h; simp at h
    | false =>
      rw [hb] at h
      rcases List.mem_cons.mp hp with rfl | hp2
      · intro hc
        exact (beq_eq_false_iff_ne.mp hb) hc.symm
      · exact lookup_none_keys h p hp2

theorem exists_key_of_lookup_isSome {n : String} :
    ∀ {l : List (String × TodoRecord)}, (l.lookup n).isSome = true →
      ∃ p ∈ l, p.1 = n
  | [], h => by simp [List.lookup] at h
  | (k, v) :: rest, h => by
    rw [List.lookup_cons] at h
    cases hb : (n == k) with
    | true =>
      exact ⟨(k, v), List.mem_cons_self _ _, (beq_iff_eq.mp hb).symm⟩
    | false =>
      rw [hb] at h
      obtain ⟨p, hp, hpk⟩ := exists_key_of_lookup_isSome h
      exact ⟨p, List.mem_cons_of_mem _ hp, hpk⟩

theorem markEntry_fst (n : String) (p : String × TodoRecord) :
    (markEntry n p).1 = p.1 := by
  unfold markEntry
  split <;> rfl

theorem lookup_isSome_map_markEntry (n m : String) :
    ∀ (l : List (String × TodoRecord)),
      ((l.map (markEntry m)).lookup n).isSome = (l.lookup n).isSome
  | [] => rfl
  | (k, v) :: rest => by
    simp only [List.map_cons]
    by_cases hkm : ((k, v).1 == m) = true
    · rw [show markEntry m (k, v) = (k, ⟨v.description, v.due_date, true⟩) from by
        unfold markEntry; rw [if_pos hkm]]
      rw [List.lookup_cons, List.lookup_cons]
      cases hb : (n == k) <;> simp [lookup_isSome_map_markEntry n m rest]
    · rw [show markEntry m (k, v) = (k, v) from by unfold markEntry; rw [if_neg hkm]]
      rw [List.lookup_cons, List.lookup_cons]
      cases hb : (n == k) <;> simp [lookup_isSome_map_markEntry n m rest]

theorem markEntry_idem (n : String) (p : String × TodoRecord) :
    markEntry n (markEntry n p) = markEntry n p := by
  unfold markEntry
  by_cases h : (p.1 == n) = true <;> simp [h]

theorem markRow_name (n : String) (r : TodoItem) : (markRow n r).name = r.name := by
  unfold markRow
  split <;> rfl

theorem markRow_idem (n : String) (r : TodoItem) :
    markRow n (markRow n r) = markRow n r := by
  unfold markRow
  by_cases h : (r.name == n) = true <;> simp [h]

theorem entryItem_markEntry (n : String) (p : String × TodoRecord) :
    entryItem (markEntry n p) = markRow n (entryItem p) := by
  unfold markEntry markRow entryItem
  by_cases h : (p.1 == n) = true <;> simp [h]

theorem any_name_map_markRow (n m : String) (rows : List TodoItem) :
    ((rows.map (markRow m)).any (fun r => r.name == n)) =
      rows.any (fun r => r.name == n) := by
  rw [List.any_map]
  congr 1
  funext r
  show ((markRow m r).name == n) = (r.name == n)
  rw [markRow_name]

theorem map_entryItem_filter (n : String) :
    ∀ (l : List (String × TodoRecord)),
      (l.filter (fun p => !(p.1 == n))).map entryItem =
        (l.map entryItem).filter (fun it => !(it.name == n))
  | [] => rfl
  | p :: rest => by
    have hn : (entryItem p).name = p.1 := rfl
    cases h : (p.1 == n) <;>
      simp [List.filter_cons, h, hn, map_entryItem_filter n rest]

theorem length_filter_split {α : Type _} (p : α → Bool) (l : List α) :
    l.length = (l.filter p).length + (l.filter (fun a => !(p a))).length := by
  have e : (fun a => decide (¬(p a = true))) = (fun a => !(p a)) := by
    funext a
    cases h : p a <;> simp [h]
  rw [← List.countP_eq_length_filter, ← List.countP_eq_length_filter,
    List.length_eq_countP_add_countP p l, e]

theorem filter_name_length_one (n : String) :
    ∀ (l : List TodoItem), (l.map (fun it => it.name)).Nodup →
      l.any (fun r => r.name == n) = true →
      (l.filter (fun it => it.name == n)).length = 1
  | [], _, h => by simp at h
  | r :: rest, hnd, h => by
    rw [List.map_cons, List.nodup_cons] at hnd
    obtain ⟨hnotin, hndrest⟩ := hnd
    cases hr : (r.name == n) with
    | true =>
      rw [List.filter_cons, if_pos hr]
      have hrest : rest.filter (fun it => it.name == n) = [] := by
        rw [List.filter_eq_nil_iff]
        intro it hit hb
        apply hnotin
        have : it.name = n := beq_iff_eq.mp hb
        have : it.name = r.name := by rw [this, beq_iff_eq.mp hr]
        exact this ▸ List.mem_map_of_mem _ hit
      rw [hrest]
      rfl
    | false =>
      rw [List.filter_cons, if_neg (by simp [hr])]
      rw [List.any_cons, hr, Bool.false_or] at h
      exact filter_name_length_one n rest hndrest h

theorem sortTodos_perm (sb so : String) (l : List TodoItem) :
    (sortTodos sb so l).Perm l :=
  List.perm_insertionSort _ l

theorem listCmp_due_asc (a b : TodoItem) :
    listCmp "due_date" "asc" a b = strLe a.due_date b.due_date := rfl

theorem sortTodos_due_asc_sorted (l : List TodoItem) :
    (sortTodos "due_date" "asc" l).Pairwise
      (fun a b => strLe a.due_date b.due_date = true) := by
  haveI : IsTotal TodoItem (fun a b => listCmp "due_date" "asc" a b = true) :=
    ⟨fun a b => by rw [listCmp_due_asc, listCmp_due_asc]; exact strLe_total _ _⟩
  haveI : IsTrans TodoItem (fun a b => listCmp "due_date" "asc" a b = true) :=
    ⟨fun a b c h1 h2 => by
      rw [listCmp_due_asc] at h1 h2 ⊢
      exact strLe_trans h1 h2⟩
  have hs := List.sorted_insertionSort
    (fun a b => listCmp "due_date" "asc" a b = true) l
  exact hs.imp (fun h => by rwa [listCmp_due_asc] at h)

theorem applyOp_json (todos : List (String × TodoRecord)) (op : Op) :
    ∃ todos', (TodoApp.applyOp (.json todos) op).2 = .json todos' := by
  cases op with
  | add name description due_date =>
    unfold TodoApp.applyOp TodoApp.add
    by_cases h : (todos.lookup name).isSome = true <;> simp [h]
  | remove name =>
    unfold TodoApp.applyOp TodoApp.remove
    by_cases h : (todos.lookup name).isSome = true <;> simp [h]
  | done name =>
    unfold TodoApp.applyOp TodoApp.done
    by_cases h : (todos.lookup name).isSome = true <;> simp [h]

theorem runOps_json (ops : List Op) :
    ∀ (todos : List (String × TodoRecord)) (s' : Store),
      TodoApp.runOps (.json todos) ops = .ok s' →
      ∃ l, s' = .json l := by
  induction ops with
  | nil =>
    intro todos s' h
    exact ⟨todos, by simpa [TodoApp.runOps] using h.symm⟩
  | cons op rest ih =>
    intro todos s' h
    unfold TodoApp.runOps at h
    obtain ⟨todos', hmid⟩ := applyOp_json todos op
    rcases happ : TodoApp.applyOp (.json todos) op with ⟨res, smid⟩
    rw [happ] at h hmid
    simp only at hmid
    cases res with
    | ok u =>
      subst hmid
      exact ih todos' s' h
    | error e => simp at h

theorem items_any_of_hasName (s : Store) (n : String)
    (h : Store.hasName s n = true) :
    (Store.items s).any (fun r => r.name == n) = true := by
  cases s with
  | json todos =>
    obtain ⟨p, hp, hpn⟩ := exists_key_of_lookup_isSome h
    rw [List.any_eq_true]
    exact ⟨entryItem p, List.mem_map_of_mem _ hp, beq_iff_eq.mpr hpn⟩
  | sql c => exact h

/-! ## The claims -/

/-- Claim C1 (code bug exhibit): on the sqlite3 backend, starting from a
loaded empty database, `add` succeeds and the new item is immediately
visible to a `list` on the same handle; but `close()` (which never commits)
rolls the implicit transaction back, so a fresh `load` of the closed file
contains no items — the claimed auto-commit durability does not hold. -/
theorem C1_sqlite3_close_discards_mutations :
    (TodoApp.add (TodoApp.load (.sqliteFile (some []))) "Todo 1" "" none).1 =
      .ok () ∧
    (TodoApp.add (TodoApp.load (.sqliteFile (some []))) "Todo 1" "" none).2 =
      .sql ⟨[], [⟨"Todo 1", "", "", false⟩], true⟩ ∧
    (TodoApp.list (.sql ⟨[], [⟨"Todo 1", "", "", false⟩], true⟩) "name" "asc").1 =
      .ok [⟨"Todo 1", "", "", false⟩] ∧
    TodoApp.load (TodoApp.close (.sql ⟨[], [⟨"Todo 1", "", "", false⟩], true⟩)) =
      .sql ⟨[], [], false⟩ ∧
    Store.items (.sql ⟨[], [], false⟩) = [] :=
  ⟨rfl, rfl, rfl, rfl, rfl⟩

/-- Claim C2: on either backend, `add` with a name that already exists
raises `ValueError` ("DuplicateNameError") and returns with the store state
exactly as it was. -/
theorem C2_duplicate_add_rejected (s : Store) (n desc : String)
    (dd : Option PyDatetime) (h : Store.hasName s n = true) :
    TodoApp.add s n desc dd = (.error .duplicateName, s) := by
  cases s with
  | json todos =>
    simp only [Store.hasName] at h
    simp only [TodoApp.add]
    rw [if_pos h]
  | sql c =>
    simp only [Store.hasName] at h
    simp only [TodoApp.add]
    rw [if_pos h]

theorem C2_duplicate_add_rejected_witness :
    Store.hasName (.json [("a", ⟨"x", "", false⟩)]) "a" = true ∧
    TodoApp.add (.json [("a", ⟨"x", "", false⟩)]) "a" "d" none =
      (.error .duplicateName, .json [("a", ⟨"x", "", false⟩)]) :=
  ⟨by decide, C2_duplicate_add_rejected _ "a" "d" none (by decide)⟩

/-- Claim C4: on either backend, `done` (markDone) on a name with no item
raises `KeyError` ("NotFoundError") and returns with the store state exactly
as it was. -/
theorem C4_markDone_missing_not_found (s : Store) (n : String)
    (h : Store.hasName s n = false) :
    TodoApp.done s n = (.error .notFound, s) := by
  cases s with
  | json todos =>
    simp only [Store.hasName] at h
    simp only [TodoApp.done]
    rw [if_neg (by simp [h])]
  | sql c =>
    simp only [Store.hasName] at h
    simp only [TodoApp.done]
    rw [if_neg (by simp [h])]

theorem C4_markDone_missing_not_found_witness :
    Store.hasName (.json [("a", ⟨"x", "", false⟩)]) "b" = false ∧
    TodoApp.done (.json [("a", ⟨"x", "", false⟩)]) "b" =
      (.error .notFound, .json [("a", ⟨"x", "", false⟩)]) :=
  ⟨by decide, C4_markDone_missing_not_found _ "b" (by decide)⟩

/-- Claim C5: on either backend, `done` (markDone) on an existing name
succeeds, sets exactly that item's `done` field to `True` (every other item
unchanged, as described by mapping `markRow` over the item collection), and
is idempotent: a second call raises no error and produces the identical
store state. -/
theorem C5_markDone_done_idempotent (s : Store) (n : String)
    (h : Store.hasName s n = true) :
    (TodoApp.done s n).1 = .ok () ∧
    Store.items (TodoApp.done s n).2 = (Store.items s).map (markRow n) ∧
    TodoApp.done (TodoApp.done s n).2 n = TodoApp.done s n := by
  cases s with
  | json todos =>
    simp only [Store.hasName] at h
    have hdone : TodoApp.done (.json todos) n =
        (.ok (), .json (todos.map (markEntry n))) := by
      simp only [TodoApp.done]
      rw [if_pos h]
    refine ⟨by rw [hdone], ?_, ?_⟩
    · rw [hdone]
      simp only [Store.items]
      rw [List.map_map, List.map_map]
      congr 1
      funext p
      exact entryItem_markEntry n p
    · rw [hdone]
      have h2 : ((todos.map (markEntry n)).lookup n).isSome = true := by
        rw [lookup_isSome_map_markEntry]
        exact h
      simp only [TodoApp.done]
      rw [if_pos h2]
      rw [List.map_map]
      have he : (markEntry n ∘ markEntry n) = markEntry n := funext (markEntry_idem n)
      rw [he]
  | sql c =>
    simp only [Store.hasName] at h
    have hdone : TodoApp.done (.sql c) n =
        (.ok (), .sql ⟨c.committed, c.rows.map (markRow n), true⟩) := by
      simp only [TodoApp.done]
      rw [if_pos h]
    refine ⟨by rw [hdone], by rw [hdone]; rfl, ?_⟩
    · rw [hdone]
      have h2 : ((c.rows.map (markRow n)).any (fun r => r.name == n)) = true := by
        rw [any_name_map_markRow]
        exact h
      simp only [TodoApp.done]
      rw [if_pos h2]
      rw [List.map_map]
      have he : (markRow n ∘ markRow n) = markRow n := funext (markRow_idem n)
      rw [he]

theorem C5_markDone_done_idempotent_witness :
    Store.hasName (.json [("a", ⟨"x", "", false⟩)]) "a" = true ∧
    ((TodoApp.done (.json [("a", ⟨"x", "", false⟩)]) "a").1 = .ok () ∧
      Store.items (TodoApp.done (.json [("a", ⟨"x", "", false⟩)]) "a").2 =
        (Store.items (.json [("a", ⟨"x", "", false⟩)])).map (markRow "a") ∧
      TodoApp.done (TodoApp.done (.json [("a", ⟨"x", "", false⟩)]) "a").2 "a" =
        TodoApp.done (.json [("a", ⟨"x", "", false⟩)]) "a") :=
  ⟨by decide, C5_markDone_done_idempotent _ "a" (by decide)⟩

/-- Claim C8: for the json backend, `close()` writes the whole in-memory
dict to the file, and for every successful session of mutating operations
the file a fresh `load` reads back is exactly the in-memory collection at
close time. -/
theorem C8_json_close_persists :
    (∀ todos : List (String × TodoRecord),
      TodoApp.close (.json todos) = .jsonFile (some todos)) ∧
    (∀ (todos : List (String × TodoRecord)) (ops : List Op) (s' : Store),
      TodoApp.runOps (.json todos) ops = .ok s' →
      TodoApp.load (TodoApp.close s') = s') := by
  refine ⟨fun todos => rfl, fun todos ops s' h => ?_⟩
  obtain ⟨l, rfl⟩ := runOps_json ops todos s' h
  rfl

theorem C8_json_close_persists_witness :
    TodoApp.runOps (.json []) [.add "a" "d" none, .done "a"] =
      .ok (.json [("a", ⟨"d", "", true⟩)]) ∧
    TodoApp.load (TodoApp.close (.json [("a", ⟨"d", "", true⟩)])) =
      .json [("a", ⟨"d", "", true⟩)] :=
  ⟨rfl, C8_json_close_persists.2 [] [.add "a" "d" none, .done "a"] _ rfl⟩

/-- Claim C10: with valid sort arguments, `list` succeeds and leaves the
store exactly as it was (the state is threaded through unchanged), and a
second `list` after the caller has done anything with its returned copy
yields the same result again — the returned records are materialized fresh
(json: a new dict per item; sqlite3: `dict_factory` rows), so the display
layer's rewriting of `due_date` cannot reach the store. -/
theorem C10_list_frame (s : Store) (sb so : String)
    (hsb : sb ∈ (["name", "description", "done", "due_date"] : List String))
    (hso : so ∈ (["asc", "desc"] : List String)) :
    ∃ out, TodoApp.list s sb so = (.ok out, s) ∧
      TodoApp.list ((TodoApp.list s sb so).2) sb so = TodoApp.list s sb so := by
  have h1 : ¬(sb ∉ (["name", "description", "done", "due_date"] : List String)) :=
    not_not_intro hsb
  have h2 : ¬(so ∉ (["asc", "desc"] : List String)) := not_not_intro hso
  cases s with
  | json todos =>
    have hls : TodoApp.list (.json todos) sb so =
        (.ok (sortTodos sb so (todos.map entryItem)), .json todos) := by
      simp only [TodoApp.list]
      rw [if_neg h1, if_neg h2]
    exact ⟨_, hls, by rw [hls]; exact hls⟩
  | sql c =>
    have hls : TodoApp.list (.sql c) sb so =
        (.ok (sortTodos sb so c.rows), .sql c) := by
      simp only [TodoApp.list]
      rw [if_neg h1, if_neg h2]
    exact ⟨_, hls, by rw [hls]; exact hls⟩

theorem C10_list_frame_witness :
    ∃ out, TodoApp.list (.json exampleTodosJson) "name" "asc" =
        (.ok out, .json exampleTodosJson) ∧
      TodoApp.list ((TodoApp.list (.json exampleTodosJson) "name" "asc").2)
          "name" "asc" =
        TodoApp.list (.json exampleTodosJson) "name" "asc" :=
  C10_list_frame _ "name" "asc" (by decide) (by decide)

/-- Claim C9: `remove` on a nonexistent name is asymmetric across backends
(json raises `KeyError` via the missing-key `del`; sqlite3's `DELETE` is
unconditional and succeeds reporting nothing), while on an existing name
(under the one-item-per-name invariant) both backends remove exactly that
item. -/
theorem C9_remove_asymmetry :
    (∀ (todos : List (String × TodoRecord)) (n : String), todos.lookup n = none →
      TodoApp.remove (.json todos) n = (.error .notFound, .json todos)) ∧
    (∀ (c : SqlConn) (n : String),
      TodoApp.remove (.sql c) n =
        (.ok (), .sql ⟨c.committed, c.rows.filter (fun r => !(r.name == n)), true⟩)) ∧
    (∀ (s : Store) (n : String), Store.namesUnique s → Store.hasName s n = true →
      (TodoApp.remove s n).1 = .ok () ∧
      Store.items (TodoApp.remove s n).2 =
        (Store.items s).filter (fun it => !(it.name == n)) ∧
      (Store.items s).length = (Store.items (TodoApp.remove s n).2).length + 1) := by
  refine ⟨?_, ?_, ?_⟩
  · intro todos n h
    simp only [TodoApp.remove]
    rw [if_neg (by simp [h])]
  · intro c n
    rfl
  · intro s n hu h
    have hfil : (TodoApp.remove s n).1 = .ok () ∧
        Store.items (TodoApp.remove s n).2 =
          (Store.items s).filter (fun it => !(it.name == n)) := by
      cases s with
      | json todos =>
        simp only [Store.hasName] at h
        have hrem : TodoApp.remove (.json todos) n =
            (.ok (), .json (todos.filter (fun p => !(p.1 == n)))) := by
          simp only [TodoApp.remove]
          rw [if_pos h]
        refine ⟨by rw [hrem], ?_⟩
        rw [hrem]
        simp only [Store.items]
        exact map_entryItem_filter n todos
      | sql c => exact ⟨rfl, rfl⟩
    refine ⟨hfil.1, hfil.2, ?_⟩
    rw [hfil.2]
    have hone := filter_name_length_one n (Store.items s) hu
      (items_any_of_hasName s n h)
    have hsplit : (Store.items s).length =
        ((Store.items s).filter (fun it => it.name == n)).length +
        ((Store.items s).filter (fun it => !(it.name == n))).length :=
      length_filter_split _ _
    omega

theorem C9_remove_asymmetry_witness :
    TodoApp.remove (.json []) "a" = (.error .notFound, .json []) ∧
    ((TodoApp.remove (.json [("a", ⟨"x", "", false⟩)]) "a").1 = .ok () ∧
      Store.items (TodoApp.remove (.json [("a", ⟨"x", "", false⟩)]) "a").2 =
        (Store.items (.json [("a", ⟨"x", "", false⟩)])).filter
          (fun it => !(it.name == "a")) ∧
      (Store.items (.json [("a", ⟨"x", "", false⟩)])).length =
        (Store.items (TodoApp.remove (.json [("a", ⟨"x", "", false⟩)]) "a").2).length
          + 1) :=
  ⟨C9_remove_asymmetry.1 [] "a" rfl,
   C9_remove_asymmetry.2.2 (.json [("a", ⟨"x", "", false⟩)]) "a"
     (by unfold Store.namesUnique; decide) (by decide)⟩

/-- Claim C3: on either backend, when the name is not yet present, `add`
succeeds and a subsequent `list` with any valid sort arguments succeeds and
contains exactly one item with that name — the newly added one, with
`done = False` and the normalized due date. -/
theorem C3_add_then_list_contains (s : Store) (n desc : String)
    (dd : Option PyDatetime) (sb so : String)
    (h : Store.hasName s n = false)
    (hsb : sb ∈ (["name", "description", "done", "due_date"] : List String))
    (hso : so ∈ (["asc", "desc"] : List String)) :
    (TodoApp.add s n desc dd).1 = .ok () ∧
    ∃ out, (TodoApp.list (TodoApp.add s n desc dd).2 sb so).1 = .ok out ∧
      out.filter (fun it => it.name == n) =
        [⟨n, desc, TodoApp.due_date_str dd, false⟩] := by
  have h1 : ¬(sb ∉ (["name", "description", "done", "due_date"] : List String)) :=
    not_not_intro hsb
  have h2 : ¬(so ∉ (["asc", "desc"] : List String)) := not_not_intro hso
  cases s with
  | json todos =>
    simp only [Store.hasName] at h
    have hnone : todos.lookup n = none := by
      cases hl : todos.lookup n with
      | none => rfl
      | some v => rw [hl] at h; simp at h
    have hadd : TodoApp.add (.json todos) n desc dd =
        (.ok (), .json (todos ++
          [(n, (⟨desc, TodoApp.due_date_str dd, false⟩ : TodoRecord))])) := by
      simp only [TodoApp.add]
      rw [if_neg (by simp [h])]
    refine ⟨by rw [hadd], ?_⟩
    rw [hadd]
    have hls : TodoApp.list
        (.json (todos ++
          [(n, (⟨desc, TodoApp.due_date_str dd, false⟩ : TodoRecord))])) sb so =
        (.ok (sortTodos sb so
          ((todos ++ [(n, (⟨desc, TodoApp.due_date_str dd, false⟩ : TodoRecord))]).map
            entryItem)),
         .json (todos ++
          [(n, (⟨desc, TodoApp.due_date_str dd, false⟩ : TodoRecord))])) := by
      simp only [TodoApp.list]
      rw [if_neg h1, if_neg h2]
    refine ⟨_, by rw [hls], ?_⟩
    have hfb : ((todos ++
        [(n, (⟨desc, TodoApp.due_date_str dd, false⟩ : TodoRecord))]).map
        entryItem).filter (fun it => it.name == n) =
        [(⟨n, desc, TodoApp.due_date_str dd, false⟩ : TodoItem)] := by
      rw [List.map_append, List.filter_append]
      have hl : (todos.map entryItem).filter (fun it => it.name == n) = [] := by
        rw [List.filter_eq_nil_iff]
        intro it hit
        obtain ⟨p, hp, rfl⟩ := List.mem_map.mp hit
        have hk := lookup_none_keys hnone p hp
        simp only [entryItem, beq_iff_eq, decide_eq_true_eq]
        exact hk
      rw [hl, List.nil_append]
      simp [entryItem]
    have hperm := (sortTodos_perm sb so
      ((todos ++ [(n, (⟨desc, TodoApp.due_date_str dd, false⟩ : TodoRecord))]).map
        entryItem)).filter (fun it => it.name == n)
    rw [hfb] at hperm
    exact List.perm_singleton.mp hperm
  | sql c =>
    simp only [Store.hasName] at h
    have hall := List.any_eq_false.mp h
    have hadd : TodoApp.add (.sql c) n desc dd =
        (.ok (), .sql ⟨c.committed,
          c.rows ++ [(⟨n, desc, TodoApp.due_date_str dd, false⟩ : TodoItem)],
          true⟩) := by
      simp only [TodoApp.add]
      rw [if_neg (by simp [h])]
    refine ⟨by rw [hadd], ?_⟩
    rw [hadd]
    have hls : TodoApp.list (.sql ⟨c.committed,
        c.rows ++ [(⟨n, desc, TodoApp.due_date_str dd, false⟩ : TodoItem)],
        true⟩) sb so =
        (.ok (sortTodos sb so
          (c.rows ++ [(⟨n, desc, TodoApp.due_date_str dd, false⟩ : TodoItem)])),
         .sql ⟨c.committed,
          c.rows ++ [(⟨n, desc, TodoApp.due_date_str dd, false⟩ : TodoItem)],
          true⟩) := by
      simp only [TodoApp.list]
      rw [if_neg h1, if_neg h2]
    refine ⟨_, by rw [hls], ?_⟩
    have hfb : (c.rows ++
        [(⟨n, desc, TodoApp.due_date_str dd, false⟩ : TodoItem)]).filter
        (fun it => it.name == n) =
        [(⟨n, desc, TodoApp.due_date_str dd, false⟩ : TodoItem)] := by
      rw [List.filter_append]
      have hl : c.rows.filter (fun it => it.name == n) = [] := by
        rw [List.filter_eq_nil_iff]
        intro it hit
        exact hall it hit
      rw [hl, List.nil_append]
      simp
    have hperm := (sortTodos_perm sb so
      (c.rows ++ [(⟨n, desc, TodoApp.due_date_str dd, false⟩ : TodoItem)])).filter
      (fun it => it.name == n)
    rw [hfb] at hperm
    exact List.perm_singleton.mp hperm

theorem C3_add_then_list_contains_witness :
    (TodoApp.add (.json []) "a" "d" none).1 = .ok () ∧
    ∃ out, (TodoApp.list (TodoApp.add (.json []) "a" "d" none).2
        "due_date" "asc").1 = .ok out ∧
      out.filter (fun it => it.name == "a") =
        [⟨"a", "d", TodoApp.due_date_str none, false⟩] :=
  C3_add_then_list_contains (.json []) "a" "d" none "due_date" "asc"
    (by decide) (by decide) (by decide)

theorem isCanonicalZ_fmtZ (f : DateFields) : isCanonicalZ (fmtZ f) = true := by
  have hd : ∀ d : Nat, isDigitChar (digitChar (d % 10)) = true := fun d =>
    digit_is_digit _ (Nat.mod_lt _ (by omega))
  show isCanonicalZ ⟨fmtZchars f⟩ = true
  simp only [isCanonicalZ, fmtZchars, pad4chars, pad2chars, List.cons_append,
    List.nil_append]
  simp [hd]

/-- Claim C6: the due-date normalization of `add`: an absent due date stores
as the empty string; a naive datetime is treated as already being UTC (its
wall-clock fields are formatted unchanged); an aware datetime in
`ZoneInfo("UTC")` is formatted unchanged, and one in any other zone is
converted with `astimezone(UTC)` first; every stored non-absent value has
the fixed shape `YYYY-MM-DDTHH:MMZ`; and concretely 2024-10-10T16:00 UTC
stores as `2024-10-10T16:00Z`, the same wall-clock time at offset -240
minutes (America/New_York in October) stores as `2024-10-10T20:00Z`, and
the naive 2024-10-10T16:00 stores identically to the UTC case. -/
theorem C6_due_date_normalization :
    TodoApp.due_date_str none = "" ∧
    (∀ f : DateFields, TodoApp.due_date_str (some ⟨f, none⟩) = fmtZ f) ∧
    (∀ f : DateFields, TodoApp.due_date_str (some ⟨f, some 0⟩) = fmtZ f) ∧
    (∀ (f : DateFields) (off : Int), off ≠ 0 →
      TodoApp.due_date_str (some ⟨f, some off⟩) = fmtZ (astimezoneUtc f off)) ∧
    (∀ dt : PyDatetime, isCanonicalZ (TodoApp.due_date_str (some dt)) = true) ∧
    TodoApp.due_date_str (some ⟨⟨2024, 10, 10, 16, 0⟩, some 0⟩) =
      "2024-10-10T16:00Z" ∧
    TodoApp.due_date_str (some ⟨⟨2024, 10, 10, 16, 0⟩, some (-240)⟩) =
      "2024-10-10T20:00Z" ∧
    TodoApp.due_date_str (some ⟨⟨2024, 10, 10, 16, 0⟩, none⟩) =
      "2024-10-10T16:00Z" := by
  refine ⟨rfl, fun f => rfl, fun f => rfl, ?_, ?_, by decide, by decide, by decide⟩
  · intro f off hoff
    simp only [TodoApp.due_date_str]
    rw [if_neg hoff]
  · intro dt
    obtain ⟨f, tz⟩ := dt
    cases tz with
    | none => exact isCanonicalZ_fmtZ f
    | some off =>
      by_cases hoff : off = 0
      · subst hoff
        exact isCanonicalZ_fmtZ f
      · show isCanonicalZ (if off = 0 then fmtZ f else fmtZ (astimezoneUtc f off)) = true
        rw [if_neg hoff]
        exact isCanonicalZ_fmtZ _

theorem C6_due_date_normalization_witness :
    TodoApp.due_date_str (some ⟨⟨2024, 10, 10, 16, 0⟩, some (-240)⟩) =
      fmtZ (astimezoneUtc ⟨2024, 10, 10, 16, 0⟩ (-240)) ∧
    isCanonicalZ (TodoApp.due_date_str
      (some ⟨⟨2024, 10, 10, 16, 0⟩, some (-240)⟩)) = true :=
  ⟨C6_due_date_normalization.2.2.2.1 ⟨2024, 10, 10, 16, 0⟩ (-240) (by decide),
   C6_due_date_normalization.2.2.2.2.1 ⟨⟨2024, 10, 10, 16, 0⟩, some (-240)⟩⟩

theorem list_due_asc_pairwise (s : Store) (out : List TodoItem) (s2 : Store)
    (h : TodoApp.list s "due_date" "asc" = (.ok out, s2)) :
    out.Pairwise (fun a b => strLe a.due_date b.due_date = true) := by
  cases s with
  | json todos =>
    simp only [TodoApp.list] at h
    rw [if_neg (by decide), if_neg (by decide)] at h
    injection h with h1 h2
    injection h1 with h3
    rw [← h3]
    exact sortTodos_due_asc_sorted _
  | sql c =>
    simp only [TodoApp.list] at h
    rw [if_neg (by decide), if_neg (by decide)] at h
    injection h with h1 h2
    injection h1 with h3
    rw [← h3]
    exact sortTodos_due_asc_sorted _

/-- Claim C7: `list` sorted by `due_date` ascending (either backend) orders
items by the lexicographic order of the stored canonical UTC strings (the
output is pairwise `strLe` on `due_date`); items with an absent due date
(empty string) come before every item with a non-empty one; on canonical
strings of valid timestamps the lexicographic order coincides with
chronological order; and on the §8 example collection the ascending order
is [Todo 2, Todo 3, Todo 1, Todo 4] in both backends. -/
theorem C7_due_date_sort_order :
    (∀ (s : Store) (out : List TodoItem) (s2 : Store),
      TodoApp.list s "due_date" "asc" = (.ok out, s2) →
      out.Pairwise (fun a b => strLe a.due_date b.due_date = true)) ∧
    (∀ (s : Store) (out : List TodoItem) (s2 : Store),
      TodoApp.list s "due_date" "asc" = (.ok out, s2) →
      ∀ (i j : Fin out.length), i < j → (out.get j).due_date = "" →
        (out.get i).due_date = "") ∧
    (∀ f g : DateFields, validFields f → validFields g →
      ((strLe (fmtZ f) (fmtZ g) = true) ↔ chronoLe f g)) ∧
    (TodoApp.list (.json exampleTodosJson) "due_date" "asc").1 =
      .ok exampleTodosByDue ∧
    (TodoApp.list (.sql ⟨exampleTodos, exampleTodos, false⟩) "due_date" "asc").1 =
      .ok exampleTodosByDue := by
  refine ⟨list_due_asc_pairwise, ?_, fun f g hf hg => fmtZ_le_iff_chronoLe hf hg,
    rfl, rfl⟩
  intro s out s2 h i j hij hj
  have hp := list_due_asc_pairwise s out s2 h
  have hle := (List.pairwise_iff_get.mp hp) i j hij
  rw [hj] at hle
  exact eq_empty_of_strLe_empty hle

theorem C7_due_date_sort_order_witness :
    exampleTodosByDue.Pairwise (fun a b => strLe a.due_date b.due_date = true) ∧
    ((strLe (fmtZ ⟨2024, 10, 8, 14, 0⟩) (fmtZ ⟨2024, 10, 10, 17, 0⟩) = true) ↔
      chronoLe ⟨2024, 10, 8, 14, 0⟩ ⟨2024, 10, 10, 17, 0⟩) :=
  ⟨C7_due_date_sort_order.1 (.json exampleTodosJson) exampleTodosByDue
      (.json exampleTodosJson) rfl,
   C7_due_date_sort_order.2.2.1 ⟨2024, 10, 8, 14, 0⟩ ⟨2024, 10, 10, 17, 0⟩
     (by unfold validFields; decide) (by unfold validFields; decide)⟩
